import Mathlib

/-
Shallow embedding of the mysql-auto-db-proxy repository (src/main.go).

Modelling conventions:
* A Go byte string ([]byte or string) is a `List Nat`, one element per byte.
* `strings.ToLower` / `strings.ToUpper` are modelled by their ASCII byte maps
  `lowerAscii` / `upperAscii`.  This is exact on every byte string the proxy
  compares: the reserved-substring needles and the literal "USE " are pure
  ASCII, the character class of the validation regexp is pure ASCII, and no
  multi-byte rune case-maps into those ASCII needles within the compared
  windows, so the accept/reject verdicts coincide with Go's Unicode folding.
* Network I/O is modelled by explicit value passing: a read that may fail is
  an `Option`, and the bytes a session writes to each peer are collected in
  trace lists.  A failed socket write only terminates a session earlier, so
  writes are modelled as infallible trace appends.
* The administrative MySQL work of ensureDatabaseExists (connect, ping,
  existence query, CREATE DATABASE; src/main.go lines 802-842) is abstracted
  as an oracle `admin : List Nat -> Bool` giving the network outcome for a
  name; the model records whether the oracle was consulted, i.e. whether an
  administrative connection was opened.
-/

/-- Byte list of an ASCII string literal. -/
def strBytes (s : String) : List Nat := s.toList.map Char.toNat

/-- Go strings.Contains: does `needle` occur as a contiguous substring of
`hay`?  (An empty needle always occurs.) -/
def containsBytes : List Nat → List Nat → Bool
  | [], needle => needle.isPrefixOf []
  | a :: t, needle => needle.isPrefixOf (a :: t) || containsBytes t needle

/-- ASCII byte map of Go strings.ToLower (see the header note). -/
def lowerAscii (b : Nat) : Nat := if 65 ≤ b ∧ b ≤ 90 then b + 32 else b

/-- ASCII byte map of Go strings.ToUpper (see the header note). -/
def upperAscii (b : Nat) : Nat := if 97 ≤ b ∧ b ≤ 122 then b - 32 else b

/-- Go strings.ToLower on a byte string. -/
def toLowerBytes (s : List Nat) : List Nat := s.map lowerAscii

/-- MySQLPacket (src/main.go lines 505-511).  Field names follow the source. -/
structure MySQLPacket where
  Length : Nat
  SequenceID : Nat
  Payload : List Nat
  FullPacket : List Nat
deriving DecidableEq

/-- Pure model of readPacketWithTimeout (src/main.go lines 519-550) on a byte
stream: read a 4-byte header, decode the 24-bit little-endian length and the
sequence byte, then read exactly that many payload bytes.  `none` models the
io.ReadFull failure when the stream ends early; on success the unread
remainder of the stream is returned alongside the packet. -/
def decodePacket (s : List Nat) : Option (MySQLPacket × List Nat) :=
  if s.length < 4 then none
  else
    let header := s.take 4
    let packetLength := header.getD 0 0 ||| header.getD 1 0 <<< 8 ||| header.getD 2 0 <<< 16
    let sequenceID := header.getD 3 0
    if (s.drop 4).length < packetLength then none
    else
      let payload := (s.drop 4).take packetLength
      some (⟨packetLength, sequenceID, payload, header ++ payload⟩,
            (s.drop 4).drop packetLength)

/-- writePacket (src/main.go lines 552-559) writes `packet.FullPacket`; this
is the byte sequence that leaves the process. -/
def writePacketBytes (packet : MySQLPacket) : List Nat := packet.FullPacket

/-- The synthesized OK packet (src/main.go lines 913-916).  The Go composite
literal sets only SequenceID and Payload, so Length is 0 and FullPacket is
nil. -/
def okPacket : MySQLPacket :=
  { Length := 0, SequenceID := 2, Payload := [0, 0, 0, 2, 0, 0, 0], FullPacket := [] }

/-- Modelled from the spec (section 3 Frame): the wire form of a frame is a
4-byte header (little-endian 24-bit length, then the sequence byte) followed
by the payload. -/
def encodeFrame (p : MySQLPacket) : List Nat :=
  [p.Length % 256, p.Length / 256 % 256, p.Length / 65536 % 256, p.SequenceID] ++ p.Payload

/-- Modelled from the spec (section 3): a byte sequence is exactly one whole
frame when the frame codec decodes it consuming every byte. -/
def isWholeFrame (b : List Nat) : Bool :=
  match decodePacket b with
  | some (_, rest) => rest.isEmpty
  | none => false

/-- Auth-method name recognized by parseDatabaseName (src/main.go line 636). -/
def authNativeBytes : List Nat := strBytes "mysql_native_password"

/-- Auth-method name recognized by parseDatabaseName (src/main.go line 637). -/
def authSha2Bytes : List Nat := strBytes "caching_sha2_password"

/-- Auth-method name recognized by parseDatabaseName (src/main.go line 638). -/
def authSha256Bytes : List Nat := strBytes "sha256_password"

/-- Client-attribute marker rejected by parseDatabaseName (line 659). -/
def clientAttrBytes : List Nat := strBytes "_client_"

/-- parseDatabaseName (src/main.go lines 562-683) on the packet payload.
The Go scans of the form `for pos < len && payload[pos] != 0 { pos++ }` are
rendered as `takeWhile (fun b => b != 0)` on the suffix `payload.drop pos`;
`pos1`, `pos2`, `pos3` are the successive values of the Go variable `pos`.
A literal index-by-index translation with run-time bounds checks is
`parseDatabaseNameChecked` below, proved to agree with this definition. -/
def parseDatabaseName (payload : List Nat) : List Nat :=
  if payload.length < 32 then []
  else
    let pos1 := 32 + ((payload.drop 32).takeWhile (fun b => b != 0)).length + 1
    if payload.length ≤ pos1 then []
    else
      let passwordLen := payload.getD pos1 0
      let pos2 := pos1 + 1 + passwordLen
      if payload.length ≤ pos2 then []
      else
        let nextField := (payload.drop pos2).takeWhile (fun b => b != 0)
        if nextField.length = 0 then []
        else
          if nextField = authNativeBytes ∨ nextField = authSha2Bytes ∨
              nextField = authSha256Bytes then
            let pos3 := pos2 + nextField.length + 1
            if payload.length ≤ pos3 then []
            else
              let dbField := (payload.drop pos3).takeWhile (fun b => b != 0)
              if dbField.length = 0 then []
              else
                if 0 < dbField.length ∧ containsBytes dbField clientAttrBytes = false ∧
                    containsBytes dbField [12] = false then dbField
                else []
          else
            if 0 < nextField.length ∧ containsBytes nextField clientAttrBytes = false ∧
                containsBytes nextField [12] = false then nextField
            else []

/-- One Go scan loop `for pos < len && p[pos] != 0 { pos++ }`, made
structurally recursive on a fuel that bounds the remaining iterations (the
loop advances `pos` toward `p.length`, so `p.length - pos` iterations
suffice).  Every index access is guarded by the loop condition. -/
def scanNulGo : Nat → List Nat → Nat → Nat
  | 0, _, pos => pos
  | fuel + 1, p, pos =>
      if pos < p.length ∧ p.getD pos 0 ≠ 0 then scanNulGo fuel p (pos + 1) else pos

/-- The Go scan starting at `pos`: position of the first zero byte at or
after `pos`, or the payload length. -/
def scanNulFrom (p : List Nat) (pos : Nat) : Nat := scanNulGo (p.length - pos) p pos

/-- Go slice expression p[a:b] with its run-time bounds check: `none` models
the slice-bounds panic. -/
def sliceChecked (p : List Nat) (a b : Nat) : Option (List Nat) :=
  if a ≤ b ∧ b ≤ p.length then some ((p.drop a).take (b - a)) else none

/-- Literal index-based translation of parseDatabaseName (src/main.go lines
562-683) in which every index access and every slice carries its Go run-time
bounds check; `none` models an out-of-bounds panic.  `usernameEnd`, `pos1`,
`pos2`, `nextEnd`, `pos3`, `dbEnd` are the successive values of the Go
variables `pos`, `nextEnd`, `dbEnd`. -/
def parseDatabaseNameChecked (payload : List Nat) : Option (List Nat) :=
  if payload.length < 32 then some []
  else
    let usernameEnd := scanNulFrom payload 32
    match sliceChecked payload 32 usernameEnd with
    | none => none
    | some _username =>
      let pos1 := usernameEnd + 1
      if payload.length ≤ pos1 then some []
      else
        match payload[pos1]? with
        | none => none
        | some passwordLen =>
          let pos2 := pos1 + 1 + passwordLen
          if payload.length ≤ pos2 then some []
          else
            let nextEnd := scanNulFrom payload pos2
            if nextEnd ≤ pos2 then some []
            else
              match sliceChecked payload pos2 nextEnd with
              | none => none
              | some nextField =>
                if nextField = authNativeBytes ∨ nextField = authSha2Bytes ∨
                    nextField = authSha256Bytes then
                  let pos3 := nextEnd + 1
                  if payload.length ≤ pos3 then some []
                  else
                    let dbEnd := scanNulFrom payload pos3
                    if dbEnd ≤ pos3 then some []
                    else
                      match sliceChecked payload pos3 dbEnd with
                      | none => none
                      | some dbName =>
                        if 0 < dbName.length ∧
                            containsBytes dbName clientAttrBytes = false ∧
                            containsBytes dbName [12] = false then some dbName
                        else some []
                else
                  if 0 < nextField.length ∧
                      containsBytes nextField clientAttrBytes = false ∧
                      containsBytes nextField [12] = false then some nextField
                  else some []

/-- isUseCommand (src/main.go lines 737-749): at least 5 bytes, and the four
bytes at offsets 4..7, uppercased, equal "USE ". -/
def isUseCommand (data : List Nat) : Bool :=
  if data.length < 5 then false
  else
    if 4 + 4 ≤ data.length then
      ((data.drop 4).take 4).map upperAscii == strBytes "USE "
    else false

/-- extractDatabaseFromUseCommand (src/main.go lines 752-770): skip the 4-byte
header and "USE ", then take bytes up to the first NUL, semicolon or space
(the Go scan `for end < len && data[end] != 0 && data[end] != 59 && data[end]
!= 32`); the empty run and the short-input case both yield "". -/
def extractDatabaseFromUseCommand (data : List Nat) : List Nat :=
  if data.length < 8 then []
  else (data.drop 8).takeWhile (fun b => b != 0 && b != 59 && b != 32)

/-- The error cases of validateDatabaseName (src/main.go lines 772-793). -/
inductive ValidateErr where
  | emptyName
  | reservedName
  | invalidChars
deriving DecidableEq

/-- Byte class of the Go regexp character class [a-zA-Z0-9_-]. -/
def isWordByte (b : Nat) : Bool :=
  (decide (97 ≤ b) && decide (b ≤ 122)) || (decide (65 ≤ b) && decide (b ≤ 90)) ||
    (decide (48 ≤ b) && decide (b ≤ 57)) || b == 95 || b == 45

/-- The Go regexp ^[a-zA-Z0-9_-]+$ on a byte string: nonempty and every byte
in the class.  (Anchored, no multiline flag, ASCII-only class.) -/
def matchesValidPattern (s : List Nat) : Bool := !s.isEmpty && s.all isWordByte

/-- validateDatabaseName (src/main.go lines 772-793): reject the empty name,
then any name whose lowercase form contains a reserved substring, then any
name not matching the pattern. -/
def validateDatabaseName (dbName : List Nat) : Option ValidateErr :=
  if dbName = [] then some .emptyName
  else
    if containsBytes (toLowerBytes dbName) (strBytes "information_schema")
        || containsBytes (toLowerBytes dbName) (strBytes "mysql")
        || containsBytes (toLowerBytes dbName) (strBytes "performance_schema")
        || containsBytes (toLowerBytes dbName) (strBytes "sys") then some .reservedName
    else
      if !matchesValidPattern dbName then some .invalidChars
      else none

/-- Outcome of ensureDatabaseExists. -/
inductive EnsureOutcome where
  | ok
  | invalidName
  | adminFailed
deriving DecidableEq

/-- ensureDatabaseExists (src/main.go lines 796-843): validate first, failing
without touching the upstream; otherwise run the administrative work
(abstracted by the `admin` oracle).  The Bool records whether an
administrative connection was opened. -/
def ensureDatabaseExists (admin : List Nat → Bool) (dbName : List Nat) :
    EnsureOutcome × Bool :=
  match validateDatabaseName dbName with
  | some _ => (.invalidName, false)
  | none => if admin dbName then (.ok, true) else (.adminFailed, true)

/-- Session lifecycle outcome of the handshake phase: Failed, or reaching the
relaying phase. -/
inductive SessionStatus where
  | failed
  | relaying
deriving DecidableEq

/-- Scripted environment for one session's handshake phase: the results of
the three fallible reads and the administrative oracle. -/
structure SessionEnv where
  greeting : Option MySQLPacket
  clientHandshake : Option MySQLPacket
  admin : List Nat → Bool
  upstreamReply : Option MySQLPacket

/-- Observable trace of the handshake phase: final status, byte chunks
written to the client, byte chunks written to the upstream, and the gate
calls made (name, outcome, admin-connection-opened). -/
structure SessionTrace where
  status : SessionStatus
  toClient : List (List Nat)
  toUpstream : List (List Nat)
  gate : List (List Nat × (EnsureOutcome × Bool))
deriving DecidableEq

/-- The tail of the handshake phase (src/main.go lines 902-932): forward the
client handshake upstream, then either forward the upstream reply to the
client or, when that read times out, write the synthesized OK packet. -/
def handshakeForward (env : SessionEnv) (clientWrites : List (List Nat))
    (clientHandshake : MySQLPacket)
    (gate : List (List Nat × (EnsureOutcome × Bool))) : SessionTrace :=
  match env.upstreamReply with
  | none =>
      ⟨.relaying, clientWrites ++ [writePacketBytes okPacket],
        [writePacketBytes clientHandshake], gate⟩
  | some serverResponse =>
      ⟨.relaying, clientWrites ++ [writePacketBytes serverResponse],
        [writePacketBytes clientHandshake], gate⟩

/-- The handshake phase of handleConnection (src/main.go lines 866-934):
read and forward the server greeting, read the client handshake response,
parse the database name, gate through ensureDatabaseExists (aborting the
session on a gate error before any byte is written upstream), then forward
and handle the upstream reply.  Failed reads are scripted in `env`. -/
def handshakePhase (env : SessionEnv) : SessionTrace :=
  match env.greeting with
  | none => ⟨.failed, [], [], []⟩
  | some serverGreeting =>
    let clientWrites := [writePacketBytes serverGreeting]
    match env.clientHandshake with
    | none => ⟨.failed, clientWrites, [], []⟩
    | some clientHandshake =>
      let databaseName := parseDatabaseName clientHandshake.Payload
      if databaseName = [] then
        handshakeForward env clientWrites clientHandshake []
      else
        let r := ensureDatabaseExists env.admin databaseName
        if r.1 = .ok then
          handshakeForward env clientWrites clientHandshake [(databaseName, r)]
        else ⟨.failed, clientWrites, [], [(databaseName, r)]⟩

/-- Observable trace of the relaying-phase client-to-upstream loop. -/
structure ForwardResult where
  writes : List (List Nat)
  gate : List (List Nat × (EnsureOutcome × Bool))
deriving DecidableEq

/-- forwardWithUseInterception (src/main.go lines 694-734) over the list of
chunks successively returned by clientConn.Read: a nonempty chunk is first
classified; on a USE command with a nonempty name the gate is called and its
error, if any, is ignored; the raw chunk is then forwarded unmodified. -/
def forwardWithUseInterception (admin : List Nat → Bool) :
    List (List Nat) → ForwardResult
  | [] => ⟨[], []⟩
  | chunk :: rest =>
    if chunk.isEmpty then forwardWithUseInterception admin rest
    else
      let gateHere :=
        if isUseCommand chunk then
          let databaseName := extractDatabaseFromUseCommand chunk
          if databaseName = [] then []
          else [(databaseName, ensureDatabaseExists admin databaseName)]
        else []
      let r := forwardWithUseInterception admin rest
      ⟨chunk :: r.writes, gateHere ++ r.gate⟩

/-! Helper lemmas about scans, takeWhile and the forwarding loop. -/

theorem takeWhile_take_length (q : Nat → Bool) (l : List Nat) :
    l.take (l.takeWhile q).length = l.takeWhile q := by
  induction l with
  | nil => rfl
  | cons a t ih =>
      by_cases h : q a
      · simp [List.takeWhile_cons, h, ih]
      · simp [List.takeWhile_cons, h]

theorem takeWhile_length_le (q : Nat → Bool) (l : List Nat) :
    (l.takeWhile q).length ≤ l.length := by
  induction l with
  | nil => simp
  | cons a t ih =>
      by_cases h : q a
      · simp only [List.takeWhile_cons, h, if_true, List.length_cons]
        omega
      · simp [List.takeWhile_cons, h]

theorem all_takeWhile (q : Nat → Bool) (l : List Nat) :
    (l.takeWhile q).all q = true := by
  induction l with
  | nil => rfl
  | cons a t ih =>
      by_cases h : q a
      · simp [List.takeWhile_cons, h, ih]
      · simp [List.takeWhile_cons, h]

theorem takeWhile_stops (q : Nat → Bool) (xs rest : List Nat) (y : Nat)
    (hxs : ∀ b ∈ xs, q b = true) (hy : q y = false) :
    (xs ++ y :: rest).takeWhile q = xs := by
  rw [List.takeWhile_append_of_pos (by simpa using hxs)]
  simp [List.takeWhile_cons, hy]

theorem takeWhile_of_all (q : Nat → Bool) (xs : List Nat)
    (hxs : ∀ b ∈ xs, q b = true) : xs.takeWhile q = xs :=
  List.takeWhile_eq_self_iff.mpr (by simpa using hxs)

theorem drop_cons_getD {p : List Nat} {pos : Nat} (h : pos < p.length) :
    p.drop pos = p.getD pos 0 :: p.drop (pos + 1) := by
  rw [List.drop_eq_getElem_cons h]
  simp [List.getD_eq_getElem?_getD, List.getElem?_eq_getElem h]

theorem getD_of_drop_cons {p : List Nat} {n a : Nat} {t : List Nat}
    (h : p.drop n = a :: t) : p.getD n 0 = a := by
  have hn : n < p.length := by
    by_contra hc
    rw [List.drop_eq_nil_of_le (by omega)] at h
    cases h
  have h2 := drop_cons_getD hn
  rw [h] at h2
  exact (List.cons.injEq _ _ _ _ ▸ h2).1.symm

theorem scanNulGo_eq (fuel : Nat) : ∀ (p : List Nat) (pos : Nat), p.length ≤ pos + fuel →
    scanNulGo fuel p pos = pos + ((p.drop pos).takeWhile (fun b => b != 0)).length := by
  induction fuel with
  | zero =>
      intro p pos h
      rw [scanNulGo, List.drop_eq_nil_of_le (by omega)]
      rfl
  | succ fuel ih =>
      intro p pos h
      rw [scanNulGo]
      by_cases hcond : pos < p.length ∧ p.getD pos 0 ≠ 0
      · rw [if_pos hcond, ih p (pos + 1) (by omega), drop_cons_getD hcond.1,
          List.takeWhile_cons]
        have hq : (p.getD pos 0 != 0) = true := by simpa using hcond.2
        rw [hq]
        simp only [if_true, List.length_cons]
        omega
      · rw [if_neg hcond]
        push_neg at hcond
        by_cases hlt : pos < p.length
        · rw [drop_cons_getD hlt, List.takeWhile_cons]
          have hq : (p.getD pos 0 != 0) = false := by simpa using hcond hlt
          rw [hq]
          rfl
        · rw [List.drop_eq_nil_of_le (by omega)]
          rfl

theorem scanNulFrom_eq (p : List Nat) (pos : Nat) :
    scanNulFrom p pos = pos + ((p.drop pos).takeWhile (fun b => b != 0)).length :=
  scanNulGo_eq (p.length - pos) p pos (by omega)

theorem forward_writes (admin : List Nat → Bool) (chunks : List (List Nat)) :
    (forwardWithUseInterception admin chunks).writes =
      chunks.filter (fun c => !c.isEmpty) := by
  induction chunks with
  | nil => rfl
  | cons chunk rest ih =>
      rw [forwardWithUseInterception]
      by_cases h : chunk.isEmpty
      · rw [if_pos h, ih, List.filter_cons, if_neg (by simp [h])]
      · rw [if_neg h]
        simp only [List.filter_cons]
        rw [if_pos (by simp [h])]
        simpa using ih

theorem extract_eq_takeWhile (data : List Nat) :
    extractDatabaseFromUseCommand data =
      (data.drop 8).takeWhile (fun b => b != 0 && b != 59 && b != 32) := by
  unfold extractDatabaseFromUseCommand
  split_ifs with h1
  · rw [List.drop_eq_nil_of_le (by omega)]
    rfl
  · rfl

theorem lor_decompose (n : Nat) (h : n < 2 ^ 24) :
    n % 256 ||| (n / 256 % 256) <<< 8 ||| (n / 65536 % 256) <<< 16 = n := by
  have e8 : (2 : Nat) ^ 8 = 256 := by norm_num
  have e16 : (2 : Nat) ^ 16 = 65536 := by norm_num
  have e24 : (2 : Nat) ^ 24 = 16777216 := by norm_num
  have h1 : (n / 256 % 256) <<< 8 = 2 ^ 8 * (n / 256 % 256) := by
    rw [Nat.shiftLeft_eq, e8, Nat.mul_comm]
  have h2 : (n / 65536 % 256) <<< 16 = 2 ^ 16 * (n / 65536 % 256) := by
    rw [Nat.shiftLeft_eq, e16, Nat.mul_comm]
  have hb8 : n % 256 < 2 ^ 8 := by rw [e8]; omega
  rw [h1, Nat.lor_comm (n % 256), ← Nat.mul_add_lt_is_or hb8]
  have hb16 : 2 ^ 8 * (n / 256 % 256) + n % 256 < 2 ^ 16 := by rw [e8, e16]; omega
  rw [h2, Nat.lor_comm, ← Nat.mul_add_lt_is_or hb16]
  rw [e8, e16] at *
  rw [e24] at h
  omega

/-! Claim theorems. -/

/-- Claim C2: schema-name validation succeeds exactly when the name matches
the anchored pattern of word bytes [a-zA-Z0-9_-]+ and its lowercased form
contains none of the four reserved substrings; any name failing this is
rejected as an invalid name by ensureDatabaseExists without opening an
administrative connection. -/
theorem c2_validation_characterized (name : List Nat) (admin : List Nat → Bool) :
    (validateDatabaseName name = none ↔
      (matchesValidPattern name = true ∧
        containsBytes (toLowerBytes name) (strBytes "information_schema") = false ∧
        containsBytes (toLowerBytes name) (strBytes "mysql") = false ∧
        containsBytes (toLowerBytes name) (strBytes "performance_schema") = false ∧
        containsBytes (toLowerBytes name) (strBytes "sys") = false)) ∧
    (validateDatabaseName name ≠ none →
      ensureDatabaseExists admin name = (EnsureOutcome.invalidName, false)) := by
  constructor
  · unfold validateDatabaseName
    split_ifs with h1 h2 h3
    · subst h1
      simp [matchesValidPattern]
    · constructor
      · intro hc; cases hc
      · rintro ⟨_, hinfo, hmy, hperf, hsy⟩
        rw [hinfo, hmy, hperf, hsy] at h2
        simp at h2
    · constructor
      · intro hc; cases hc
      · rintro ⟨hm, _⟩
        rw [hm] at h3
        simp at h3
    · simp only [Bool.or_eq_true, not_or, Bool.not_eq_true] at h2
      obtain ⟨⟨⟨hinfo, hmy⟩, hperf⟩, hsy⟩ := h2
      constructor
      · intro _
        exact ⟨by simpa using h3, hinfo, hmy, hperf, hsy⟩
      · intro _; rfl
  · intro hne
    unfold ensureDatabaseExists
    rcases hval : validateDatabaseName name with _ | e
    · exact absurd hval hne
    · rfl

/-- Witness for c2_validation_characterized at the reserved name
information_schema. -/
theorem c2_validation_characterized_witness :
    validateDatabaseName (strBytes "information_schema") ≠ none ∧
    ensureDatabaseExists (fun _ => true) (strBytes "information_schema") =
      (EnsureOutcome.invalidName, false) :=
  ⟨by decide, (c2_validation_characterized (strBytes "information_schema")
    (fun _ => true)).2 (by decide)⟩

/-- Claim C6: the in-session classifier matches exactly the client frames of
length at least 8 whose bytes at offsets 4..7 case-insensitively equal
"USE ", extraction takes the run of bytes from offset 8 up to the first NUL,
semicolon or space (or frame end), and the spec's three concrete command
regions behave as stated. -/
theorem c6_use_classifier :
    (∀ data : List Nat, isUseCommand data = true ↔
      (8 ≤ data.length ∧ ((data.drop 4).take 4).map upperAscii = strBytes "USE ")) ∧
    (∀ data : List Nat, extractDatabaseFromUseCommand data =
      (data.drop 8).takeWhile (fun b => b != 0 && b != 59 && b != 32)) ∧
    isUseCommand ([11, 0, 0, 0] ++ strBytes "USE orders;") = true ∧
    extractDatabaseFromUseCommand ([11, 0, 0, 0] ++ strBytes "USE orders;") =
      strBytes "orders" ∧
    isUseCommand ([11, 0, 0, 0] ++ strBytes "use orders ") = true ∧
    extractDatabaseFromUseCommand ([11, 0, 0, 0] ++ strBytes "use orders ") =
      strBytes "orders" ∧
    isUseCommand ([8, 0, 0, 0] ++ strBytes "SELECT 1") = false := by
  refine ⟨?_, extract_eq_takeWhile, by decide, by decide, by decide, by decide, by decide⟩
  intro data
  unfold isUseCommand
  split_ifs with h1 h2
  · constructor
    · intro hc; cases hc
    · rintro ⟨hlen, _⟩; exact absurd hlen (by omega)
  · rw [beq_iff_eq]
    constructor
    · intro he; exact ⟨by omega, he⟩
    · rintro ⟨_, he⟩; exact he
  · constructor
    · intro hc; cases hc
    · rintro ⟨hlen, _⟩; exact absurd hlen (by omega)

/-- Claim C7: in the relaying phase a provisioning-gate failure on an
intercepted schema-selection chunk is swallowed — forwarding does not depend
on the gate oracle at all, every nonempty chunk read from the client is
forwarded to the upstream verbatim, and processing continues past any
failure. -/
theorem c7_gate_failure_swallowed (admin adminB : List Nat → Bool)
    (chunks : List (List Nat)) :
    (forwardWithUseInterception admin chunks).writes =
      chunks.filter (fun c => !c.isEmpty) ∧
    (forwardWithUseInterception admin chunks).writes =
      (forwardWithUseInterception adminB chunks).writes :=
  ⟨forward_writes admin chunks, by rw [forward_writes, forward_writes]⟩

/-- Claim C10: the name extracted from a USE command is a contiguous run of
the input starting at offset 8 (a prefix of the bytes from offset 8 on) and
contains no NUL, semicolon or space byte. -/
theorem c10_use_extraction_invariant (data : List Nat) :
    extractDatabaseFromUseCommand data =
      (data.drop 8).take (extractDatabaseFromUseCommand data).length ∧
    (extractDatabaseFromUseCommand data).all
      (fun b => b != 0 && b != 59 && b != 32) = true := by
  rw [extract_eq_takeWhile]
  exact ⟨(takeWhile_take_length _ _).symm, all_takeWhile _ _⟩

/-- Claim C8 is false as stated: in the relaying phase the relay forwards the
raw chunk [5,0,0,0,85,83] — a frame header announcing 5 payload bytes
followed by only 2 — verbatim, so this relay write does not correspond to one
whole frame. -/
theorem c8_not_frame_aligned_counterexample :
    (forwardWithUseInterception (fun _ => true) [[5, 0, 0, 0, 85, 83]]).writes =
      [[5, 0, 0, 0, 85, 83]] ∧
    isWholeFrame [5, 0, 0, 0, 85, 83] = false :=
  ⟨by decide, by decide⟩

/-- Claim C8 amended: a successful frame-codec decode consumes exactly one
whole frame and re-emitting the decoded packet writes exactly those consumed
bytes (so handshake-phase codec reads and forwards are frame-aligned), while
the relaying phase forwards raw byte chunks verbatim and gives no
frame-alignment guarantee. -/
theorem c8_codec_framing :
    (∀ (s : List Nat) (p : MySQLPacket) (rest : List Nat),
        decodePacket s = some (p, rest) →
          s = writePacketBytes p ++ rest ∧ isWholeFrame (writePacketBytes p) = true) ∧
    (∀ (admin : List Nat → Bool) (chunks : List (List Nat)),
        (forwardWithUseInterception admin chunks).writes =
          chunks.filter (fun c => !c.isEmpty)) := by
  constructor
  · intro s p rest hdec
    rcases s with _ | ⟨b0, _ | ⟨b1, _ | ⟨b2, _ | ⟨b3, t⟩⟩⟩⟩
    · simp [decodePacket] at hdec
    · simp [decodePacket] at hdec
    · simp [decodePacket] at hdec
    · simp [decodePacket] at hdec
    · unfold decodePacket at hdec
      rw [if_neg (by simp)] at hdec
      simp only [List.take_succ_cons, List.take_zero, List.drop_succ_cons,
        List.drop_zero, List.getD_cons_zero, List.getD_cons_succ,
        List.length_cons] at hdec
      by_cases hfit : t.length < b0 ||| b1 <<< 8 ||| b2 <<< 16
      · rw [if_pos hfit] at hdec
        cases hdec
      · rw [if_neg hfit] at hdec
        rw [Option.some.injEq, Prod.mk.injEq] at hdec
        obtain ⟨hp, hrest⟩ := hdec
        subst hp
        subst hrest
        constructor
        · simp [writePacketBytes, List.take_append_drop]
        · unfold isWholeFrame decodePacket writePacketBytes
          simp only [List.cons_append, List.nil_append]
          rw [if_neg (by simp)]
          simp only [List.take_succ_cons, List.take_zero, List.drop_succ_cons,
            List.drop_zero, List.getD_cons_zero, List.getD_cons_succ,
            List.length_cons]
          have hlen : (t.take (b0 ||| b1 <<< 8 ||| b2 <<< 16)).length =
              b0 ||| b1 <<< 8 ||| b2 <<< 16 := by
            rw [List.length_take]
            omega
          rw [if_neg (by omega)]
          rw [List.drop_eq_nil_of_le (by omega)]
          rfl
  · intro admin chunks
    exact forward_writes admin chunks

/-- Witness for c8_codec_framing at the one-payload-byte frame 01 00 00 00
07. -/
theorem c8_codec_framing_witness :
    ([1, 0, 0, 0, 7] : List Nat) =
      writePacketBytes ⟨1, 0, [7], [1, 0, 0, 0, 7]⟩ ++ [] ∧
    isWholeFrame (writePacketBytes ⟨1, 0, [7], [1, 0, 0, 0, 7]⟩) = true :=
  c8_codec_framing.1 [1, 0, 0, 0, 7] ⟨1, 0, [7], [1, 0, 0, 0, 7]⟩ [] (by decide)

/-- Claim C9: decoding the encoded wire form of a well-formed frame (payload
length equal to the length field, 24-bit length, 8-bit sequence number,
FullPacket holding the wire form) returns exactly the frame and consumes the
whole input. -/
theorem c9_frame_roundtrip (p : MySQLPacket)
    (hlen : p.Length = p.Payload.length) (h24 : p.Length < 2 ^ 24)
    (hseq : p.SequenceID < 256) (hfull : p.FullPacket = encodeFrame p) :
    decodePacket (encodeFrame p) = some (p, []) := by
  obtain ⟨L, seq, payload, full⟩ := p
  simp only [encodeFrame] at hfull ⊢
  simp only at hlen h24 hseq hfull ⊢
  subst hlen
  unfold decodePacket
  rw [if_neg (by simp)]
  simp only [List.cons_append, List.nil_append, List.take_succ_cons,
    List.take_zero, List.drop_succ_cons, List.drop_zero, List.getD_cons_zero,
    List.getD_cons_succ, List.length_cons]
  rw [lor_decompose payload.length h24]
  rw [if_neg (by omega)]
  rw [List.take_length, List.drop_length, hfull]
  simp

/-- Witness for c9_frame_roundtrip at a concrete two-byte-payload frame. -/
theorem c9_frame_roundtrip_witness :
    decodePacket (encodeFrame ⟨2, 3, [7, 9], [2, 0, 0, 3, 7, 9]⟩) =
      some (⟨2, 3, [7, 9], [2, 0, 0, 3, 7, 9]⟩, []) :=
  c9_frame_roundtrip ⟨2, 3, [7, 9], [2, 0, 0, 3, 7, 9]⟩ (by decide) (by decide)
    (by decide) (by decide)

/-- Claim C1: with both handshake-phase reads succeeding, if the field
extractor returns a nonempty schema name from the client handshake response
and the provisioning gate errors on that name, the session ends in the failed
state and the handshake response frame (indeed, any byte at all) is never
written to the upstream connection. -/
theorem c1_gate_error_aborts (env : SessionEnv) (g ch : MySQLPacket)
    (hg : env.greeting = some g) (hch : env.clientHandshake = some ch)
    (hname : parseDatabaseName ch.Payload ≠ [])
    (hfail : (ensureDatabaseExists env.admin (parseDatabaseName ch.Payload)).1 ≠
      EnsureOutcome.ok) :
    (handshakePhase env).status = SessionStatus.failed ∧
    (handshakePhase env).toUpstream = [] := by
  unfold handshakePhase
  rw [hg, hch]
  simp only []
  rw [if_neg hname, if_neg hfail]
  exact ⟨rfl, rfl⟩

/-- Witness for c1_gate_error_aborts: a session whose client handshake names
the reserved schema information_schema fails with nothing written upstream. -/
theorem c1_gate_error_aborts_witness :
    (handshakePhase ⟨some ⟨1, 0, [7], [1, 0, 0, 0, 7]⟩,
        some ⟨55, 1, List.replicate 32 0 ++ strBytes "root" ++ [0] ++ [0] ++
          strBytes "information_schema", []⟩,
        fun _ => true, none⟩).status = SessionStatus.failed ∧
    (handshakePhase ⟨some ⟨1, 0, [7], [1, 0, 0, 0, 7]⟩,
        some ⟨55, 1, List.replicate 32 0 ++ strBytes "root" ++ [0] ++ [0] ++
          strBytes "information_schema", []⟩,
        fun _ => true, none⟩).toUpstream = [] :=
  c1_gate_error_aborts _ _ _ rfl rfl (by decide) (by decide)

/-- Claim C3, settled against the code at the failing input: when the read of
the upstream's reply to the forwarded handshake times out, handleConnection
builds the synthetic OK packet, but writePacket emits packet.FullPacket,
which the Go composite literal never populated — so the write to the client
is the empty byte sequence, not a non-empty OK frame; the session does
proceed to the relaying phase. -/
theorem c3_timeout_ok_write_is_empty (env : SessionEnv) (g ch : MySQLPacket)
    (hg : env.greeting = some g) (hch : env.clientHandshake = some ch)
    (hnodb : parseDatabaseName ch.Payload = [])
    (hto : env.upstreamReply = none) :
    (handshakePhase env).status = SessionStatus.relaying ∧
    (handshakePhase env).toClient = [writePacketBytes g, []] ∧
    writePacketBytes okPacket = [] := by
  unfold handshakePhase
  rw [hg, hch]
  simp only []
  rw [if_pos hnodb]
  unfold handshakeForward
  rw [hto]
  exact ⟨rfl, rfl, rfl⟩

/-- Witness for c3_timeout_ok_write_is_empty: a concrete session whose
handshake names no schema and whose upstream-reply read times out. -/
theorem c3_timeout_ok_write_is_empty_witness :
    (handshakePhase ⟨some ⟨1, 0, [7], [1, 0, 0, 0, 7]⟩,
        some ⟨0, 1, [], [0, 0, 0, 1]⟩, fun _ => true, none⟩).status =
      SessionStatus.relaying ∧
    (handshakePhase ⟨some ⟨1, 0, [7], [1, 0, 0, 0, 7]⟩,
        some ⟨0, 1, [], [0, 0, 0, 1]⟩, fun _ => true, none⟩).toClient =
      [writePacketBytes ⟨1, 0, [7], [1, 0, 0, 0, 7]⟩, []] ∧
    writePacketBytes okPacket = [] :=
  c3_timeout_ok_write_is_empty _ _ _ rfl rfl (by decide) rfl

/-- Claim C5: on a handshake payload made of 32 fixed bytes, a
null-terminated username, a length-prefixed credential block, and trailing
null-terminated fields consisting of one of the three known
authentication-method names followed by a plausible schema name, the
extractor skips the auth-method tag and returns the following field. -/
theorem c5_auth_tag_skipped (fixed user cred auth db : List Nat)
    (hfix : fixed.length = 32)
    (huser : ∀ b ∈ user, b ≠ 0)
    (hcred : cred.length ≤ 255)
    (hauth : auth = authNativeBytes ∨ auth = authSha2Bytes ∨ auth = authSha256Bytes)
    (hdb0 : ∀ b ∈ db, b ≠ 0)
    (hdbne : db ≠ [])
    (hattr : containsBytes db clientAttrBytes = false)
    (hff : containsBytes db [12] = false) :
    parseDatabaseName
      (fixed ++ user ++ [0] ++ (cred.length :: cred) ++ auth ++ [0] ++ db) = db := by
  have hauthnz : ∀ b ∈ auth, (b != 0) = true := by
    rcases hauth with rfl | rfl | rfl <;> decide
  have hauthlen : 0 < auth.length := by
    rcases hauth with rfl | rfl | rfl <;> decide
  have hdlen : 0 < db.length := List.length_pos.mpr hdbne
  set p := fixed ++ user ++ [0] ++ (cred.length :: cred) ++ auth ++ [0] ++ db with hp
  have hplen : p.length = 35 + user.length + cred.length + auth.length + db.length := by
    simp only [hp, List.length_append, List.length_cons, List.length_nil, hfix]
    omega
  have hpr1 : p = fixed ++ (user ++ (0 :: (cred.length :: (cred ++ (auth ++ (0 :: db)))))) := by
    simp [hp, List.append_assoc]
  have hdrop32 : p.drop 32 = user ++ (0 :: (cred.length :: (cred ++ (auth ++ (0 :: db))))) := by
    rw [hpr1]
    exact List.drop_left' hfix
  have h1 : (p.drop 32).takeWhile (fun b => b != 0) = user := by
    rw [hdrop32]
    exact takeWhile_stops _ user _ 0 (by simpa using huser) rfl
  have hpr2 : p = (fixed ++ (user ++ [0])) ++
      (cred.length :: (cred ++ (auth ++ (0 :: db)))) := by
    simp [hp, List.append_assoc]
  have hdroppos1 : p.drop (32 + user.length + 1) =
      cred.length :: (cred ++ (auth ++ (0 :: db))) := by
    rw [hpr2]
    exact List.drop_left'
      (by simp only [List.length_append, List.length_cons, List.length_nil, hfix]; omega)
  have hgetD : p.getD (32 + user.length + 1) 0 = cred.length :=
    getD_of_drop_cons hdroppos1
  have hpr3 : p = (fixed ++ (user ++ ([0] ++ (cred.length :: cred)))) ++
      (auth ++ (0 :: db)) := by
    simp [hp, List.append_assoc]
  have hdroppos2 : p.drop (32 + user.length + 1 + 1 + cred.length) =
      auth ++ (0 :: db) := by
    rw [hpr3]
    exact List.drop_left'
      (by simp only [List.length_append, List.length_cons, List.length_nil, hfix]; omega)
  have h3 : (p.drop (32 + user.length + 1 + 1 + cred.length)).takeWhile
      (fun b => b != 0) = auth := by
    rw [hdroppos2]
    exact takeWhile_stops _ auth db 0 hauthnz rfl
  have hpr4 : p = (fixed ++ (user ++ ([0] ++ ((cred.length :: cred) ++ (auth ++ [0]))))) ++
      db := by
    simp [hp, List.append_assoc]
  have hdroppos3 : p.drop (32 + user.length + 1 + 1 + cred.length + auth.length + 1) =
      db := by
    rw [hpr4]
    exact List.drop_left'
      (by simp only [List.length_append, List.length_cons, List.length_nil, hfix]; omega)
  have h4 : db.takeWhile (fun b => b != 0) = db :=
    takeWhile_of_all _ db (by intro b hb; simpa using hdb0 b hb)
  unfold parseDatabaseName
  rw [if_neg (by omega)]
  rw [h1]
  rw [if_neg (by omega)]
  rw [hgetD]
  rw [if_neg (by omega)]
  rw [h3]
  rw [if_neg (by omega)]
  rw [if_pos hauth]
  rw [if_neg (by omega)]
  rw [hdroppos3, h4]
  rw [if_neg (by omega)]
  rw [if_pos ⟨hdlen, hattr, hff⟩]

/-- Witness for c5_auth_tag_skipped: the spec's concrete payload — username
root, empty credential block, trailing fields mysql_native_password then
myapp_db — parses to myapp_db. -/
theorem c5_auth_tag_skipped_witness :
    parseDatabaseName (List.replicate 32 0 ++ strBytes "root" ++ [0] ++
      [0] ++ authNativeBytes ++ [0] ++ strBytes "myapp_db") =
      strBytes "myapp_db" :=
  c5_auth_tag_skipped (List.replicate 32 0) (strBytes "root") [] authNativeBytes
    (strBytes "myapp_db") (by decide) (by decide) (by decide) (Or.inl rfl)
    (by decide) (by decide) (by decide) (by decide)

theorem getElem?_eq_some_getD {p : List Nat} {i : Nat} (h : i < p.length) :
    p[i]? = some (p.getD i 0) := by
  rw [List.getElem?_eq_getElem h, List.getD_eq_getElem?_getD,
    List.getElem?_eq_getElem h]
  rfl

theorem sliceChecked_scan (p : List Nat) (pos : Nat) (h : pos ≤ p.length) :
    sliceChecked p pos (scanNulFrom p pos) =
      some ((p.drop pos).takeWhile (fun b => b != 0)) := by
  have hk := takeWhile_length_le (fun b => b != 0) (p.drop pos)
  rw [List.length_drop] at hk
  rw [scanNulFrom_eq]
  unfold sliceChecked
  rw [if_pos ⟨by omega, by omega⟩]
  have he : pos + ((p.drop pos).takeWhile (fun b => b != 0)).length - pos =
      ((p.drop pos).takeWhile (fun b => b != 0)).length := by omega
  rw [he, takeWhile_take_length]

/-- Claim C4: on every byte payload — truncated, empty or adversarial — the
literal bounds-checked translation of the handshake field extractor never
hits an out-of-bounds access (it never returns `none`) and agrees with the
structural definition; in particular the extractor always terminates with a
byte-string result. -/
theorem c4_parse_never_fails (payload : List Nat) :
    parseDatabaseNameChecked payload = some (parseDatabaseName payload) := by
  unfold parseDatabaseNameChecked parseDatabaseName
  by_cases h32 : payload.length < 32
  · rw [if_pos h32, if_pos h32]
  · rw [if_neg h32, if_neg h32]
    simp only []
    rw [sliceChecked_scan payload 32 (by omega)]
    simp only []
    rw [scanNulFrom_eq]
    set k1 := ((payload.drop 32).takeWhile (fun b => b != 0)).length with hk1
    by_cases hc1 : payload.length ≤ 32 + k1 + 1
    · rw [if_pos hc1, if_pos hc1]
    · rw [if_neg hc1, if_neg hc1]
      rw [getElem?_eq_some_getD (show 32 + k1 + 1 < payload.length by omega)]
      simp only []
      set pw := payload.getD (32 + k1 + 1) 0 with hpw
      by_cases hc2 : payload.length ≤ 32 + k1 + 1 + 1 + pw
      · rw [if_pos hc2, if_pos hc2]
      · rw [if_neg hc2, if_neg hc2]
        rw [sliceChecked_scan payload (32 + k1 + 1 + 1 + pw) (by omega)]
        simp only []
        rw [scanNulFrom_eq]
        set nf := (payload.drop (32 + k1 + 1 + 1 + pw)).takeWhile
          (fun b => b != 0) with hnf
        by_cases hc3 : nf.length = 0
        · rw [if_pos (by omega), if_pos hc3]
        · rw [if_neg (by omega), if_neg hc3]
          by_cases hau : nf = authNativeBytes ∨ nf = authSha2Bytes ∨
              nf = authSha256Bytes
          · rw [if_pos hau, if_pos hau]
            by_cases hc4 : payload.length ≤ 32 + k1 + 1 + 1 + pw + nf.length + 1
            · rw [if_pos hc4, if_pos hc4]
            · rw [if_neg hc4, if_neg hc4]
              rw [sliceChecked_scan payload (32 + k1 + 1 + 1 + pw + nf.length + 1)
                (by omega)]
              simp only []
              rw [scanNulFrom_eq]
              set df := (payload.drop (32 + k1 + 1 + 1 + pw + nf.length + 1)).takeWhile
                (fun b => b != 0) with hdf
              by_cases hc5 : df.length = 0
              · rw [if_pos (by omega), if_pos hc5]
              · rw [if_neg (by omega), if_neg hc5]
                split_ifs <;> rfl
          · rw [if_neg hau, if_neg hau]
            split_ifs <;> rfl
